import Mathlib

/-!
Shallow embedding of the bun-serverless gateway core: the service registry
(`ProcessManager` in `src/process/manager.ts`), the health checker, the
activity monitor's health loop (`src/monitoring/activity-monitor.ts`), and
the path-prefix router (`src/gateway/router.ts`, the variant the spec adopts
as the contract).  Timestamps are milliseconds since the epoch, modelled as
`Int`; the PM2 supervisor is modelled as an oracle (`supOk`) plus an explicit
trace of the supervisor invocations each operation issues.
-/

namespace BunServerless

/-- Lifecycle states of a service record, from `ServiceStatus` in the
repository's type declarations (the values assigned throughout
`ProcessManager`). -/
inductive ServiceStatus
  | stopped
  | starting
  | running
  | stopping
  | error
deriving DecidableEq, Repr

/-- Static per-service configuration (`ServiceConfig`): the fields
`ProcessManager` and the router read. -/
structure ServiceConfig where
  command : String
  port : Nat
  timeout : Option Int
  healthCheck : String
  instances : Nat
  autorestart : Bool
  maxRestarts : Nat
  env : List (String × String)
deriving DecidableEq, Repr

/-- Mutable lifecycle record (`ServiceInstance`), one per registered
service name, owned by the registry. -/
structure ServiceInstance where
  name : String
  config : ServiceConfig
  status : ServiceStatus
  port : Nat
  lastActivity : Int
  requestCount : Nat
  errorCount : Nat
  pid : Option Nat
  startTime : Option Int
deriving DecidableEq, Repr

/-- The registry's table `services : Map<string, ServiceInstance>`,
embedded as a list of records keyed by their `name` field. -/
abbrev Registry := List ServiceInstance

/-- `this.services.get(name)`: the record registered under `name`. -/
def getService (reg : Registry) (name : String) : Option ServiceInstance :=
  List.find? (fun s => s.name == name) reg

/-- In-place mutation of the record stored under `name` (JS mutates the
object held in the map; here we rebuild the list with the entry updated). -/
def updateService (reg : Registry) (name : String) (f : ServiceInstance → ServiceInstance) : Registry :=
  List.map (fun s => if s.name = name then f s else s) reg

/-- `registerService(name, config)` (manager lines 44-62): no-op when the
name is already registered, otherwise inserts a fresh record in `stopped`
with `lastActivity = now` and zeroed counters. -/
def registerService (reg : Registry) (name : String) (config : ServiceConfig) (now : Int) : Registry :=
  if (getService reg name).isSome then reg
  else reg ++ [{ name := name, config := config, status := .stopped, port := config.port,
                 lastActivity := now, requestCount := 0, errorCount := 0,
                 pid := none, startTime := none }]

/-- One call by the registry into the PM2 process supervisor. -/
inductive SupInvocation
  | start (name : String)
  | stop (name : String)
  | del (name : String)
deriving DecidableEq, Repr

/-- Result of `startService`: the returned record, or the raised error. -/
inductive StartServiceResult
  | ok (svc : ServiceInstance)
  | err (msg : String)
deriving DecidableEq, Repr

/-- Result of `stopService`: unit, or the raised error. -/
inductive StopServiceResult
  | ok
  | err (msg : String)
deriving DecidableEq, Repr

/-- `startService(name)` (manager lines 64-110), run to completion without
interleaving; `supOk` is the outcome of the awaited `pm2.start`.  Unknown
name throws; status `running`/`starting` returns the record untouched with
no supervisor call; otherwise the record passes through `starting` and ends
`running` (stamping `startTime`/`lastActivity`) on success, or ends `error`
with `errorCount` incremented and the error re-raised on failure.  The
third component is the trace of supervisor invocations issued. -/
def startService (reg : Registry) (name : String) (supOk : Bool) (now : Int) :
    StartServiceResult × Registry × List SupInvocation :=
  match getService reg name with
  | none => (.err ("Service " ++ name ++ " not registered"), reg, [])
  | some service =>
    if service.status = .running ∨ service.status = .starting then
      (.ok service, reg, [])
    else
      if supOk then
        (.ok { service with status := .running, startTime := some now, lastActivity := now },
         updateService reg name
           (fun s => { s with status := .running, startTime := some now, lastActivity := now }),
         [.start name])
      else
        (.err ("Failed to start service " ++ name),
         updateService reg name
           (fun s => { s with status := .error, errorCount := s.errorCount + 1 }),
         [.start name])

/-- `stopService(name)` (manager lines 112-142), run to completion;
`supOk` is the outcome of the awaited `pm2.stop`/`pm2.delete` sequence.
Status `stopped`/`stopping` returns immediately with no supervisor call;
otherwise on success the record ends `stopped` with `pid`/`startTime`
cleared, on failure it ends `error` with `errorCount` incremented and the
error re-raised (the trace keeps the `stop` call that was issued). -/
def stopService (reg : Registry) (name : String) (supOk : Bool) :
    StopServiceResult × Registry × List SupInvocation :=
  match getService reg name with
  | none => (.err ("Service " ++ name ++ " not registered"), reg, [])
  | some service =>
    if service.status = .stopped ∨ service.status = .stopping then
      (.ok, reg, [])
    else
      if supOk then
        (.ok,
         updateService reg name
           (fun s => { s with status := .stopped, pid := none, startTime := none }),
         [.stop name, .del name])
      else
        (.err ("Failed to stop service " ++ name),
         updateService reg name
           (fun s => { s with status := .error, errorCount := s.errorCount + 1 }),
         [.stop name])

/-- `updateActivity(name)` (manager lines 183-189): refresh `lastActivity`
and bump `requestCount`; silently ignores unknown names. -/
def updateActivity (reg : Registry) (serviceName : String) (now : Int) : Registry :=
  updateService reg serviceName
    (fun s => { s with lastActivity := now, requestCount := s.requestCount + 1 })

/-- `getInactiveServices(timeoutMs)` (manager lines 199-204): the `running`
records whose `lastActivity` is strictly before `now - timeoutMs`. -/
def getInactiveServices (reg : Registry) (timeoutMs : Int) (now : Int) : List ServiceInstance :=
  let cutoff := now - timeoutMs
  List.filter (fun s => decide (s.status = .running ∧ s.lastActivity < cutoff)) reg

/-- Classification carried by a `HealthCheckResult`. -/
inductive HCStatus
  | healthy
  | unhealthy
  | timeout
deriving DecidableEq, Repr

/-- `HealthCheckResult`: probe classification, latency, optional detail. -/
structure HealthCheckResult where
  status : HCStatus
  responseTime : Int
  error : Option String
deriving DecidableEq, Repr

/-- Outcome of the probe's `fetch` as the health checker observes it: a
completed HTTP response with its status code, a `TimeoutError` from the
5s abort signal, or any other transport error (connection refused/reset),
each carrying the thrown error's message. -/
inductive ProbeOutcome
  | completed (statusCode : Nat)
  | timedOut (msg : String)
  | connError (msg : String)
deriving DecidableEq, Repr

/-- `healthCheck(serviceName)` (manager lines 144-181).  A missing or
non-`running` record is `unhealthy` ("Service not running").  Otherwise the
probe outcome is classified: a completed response with `response.ok`
(status 200-299) is `healthy`; any other completed status is `unhealthy`
with `HTTP <status>` as detail; a timeout is `timeout`; any other fetch
failure is `unhealthy`.  The registry is never modified. -/
def healthCheck (reg : Registry) (serviceName : String) (outcome : ProbeOutcome)
    (responseTime : Int) : HealthCheckResult :=
  match getService reg serviceName with
  | none => { status := .unhealthy, responseTime := 0, error := some "Service not running" }
  | some service =>
    if service.status ≠ .running then
      { status := .unhealthy, responseTime := 0, error := some "Service not running" }
    else
      match outcome with
      | .completed s =>
        if 200 ≤ s ∧ s ≤ 299 then
          { status := .healthy, responseTime := responseTime, error := none }
        else
          { status := .unhealthy, responseTime := responseTime,
            error := some ("HTTP " ++ toString s) }
      | .timedOut msg => { status := .timeout, responseTime := responseTime, error := some msg }
      | .connError msg => { status := .unhealthy, responseTime := responseTime, error := some msg }

/-- One iteration of the Activity Monitor's health loop for a single
running service (`performHealthChecks`, activity-monitor lines 82-101):
run the health check; when the result is not `healthy`, increment that
record's `errorCount` and nothing else. -/
def performHealthCheckOn (reg : Registry) (serviceName : String) (outcome : ProbeOutcome)
    (responseTime : Int) : Registry :=
  let result := healthCheck reg serviceName outcome responseTime
  if result.status = .healthy then reg
  else updateService reg serviceName (fun s => { s with errorCount := s.errorCount + 1 })

/-- `split('/')` on a character list: cut at every separator, keeping empty
pieces, as the JS `String.prototype.split` does. -/
def splitSlashAux : List Char → List Char → List String
  | [], acc => [String.mk acc.reverse]
  | c :: rest, acc =>
    if c = '/' then String.mk acc.reverse :: splitSlashAux rest []
    else splitSlashAux rest (c :: acc)

/-- `url.pathname.split('/').filter(Boolean)`: the non-empty path
segments (router line 22). -/
def pathSegments (path : String) : List String :=
  List.filter (fun s => !s.isEmpty) (splitSlashAux path.toList [])

/-- `headers.set(k, v)` on a case-preserved header map: replace any entry
named `k` with the single pair `(k, v)`. -/
def setHeader (hs : List (String × String)) (k v : String) : List (String × String) :=
  List.filter (fun p => p.1 != k) hs ++ [(k, v)]

/-- `headers.get(k)` on the embedded header map. -/
def getHeader : List (String × String) → String → Option String
  | [], _ => none
  | (k, v) :: rest, k' => if k = k' then some v else getHeader rest k'

/-- Observable side effects of one router call: whether the configuration's
service map was consulted, whether `registerService` was invoked, and the
supervisor invocations issued. -/
structure RouterEffects where
  consultedConfig : Bool
  registeredService : Bool
  supCalls : List SupInvocation
deriving DecidableEq, Repr

/-- A router call that touched neither the configuration, the registry's
registration path, nor the supervisor. -/
def noEffects : RouterEffects := { consultedConfig := false, registeredService := false, supCalls := [] }

/-- `config.services[serviceName]` (router line 111): lookup in the
configuration's service map. -/
def configLookup (services : List (String × ServiceConfig)) (name : String) : Option ServiceConfig :=
  Option.map Prod.snd (List.find? (fun p => p.1 == name) services)

/-- Second half of `ensureServiceRunning` (router lines 122-136), entered
with the record present (or just registered): a non-`running` record is
started (re-reading the record after the settle delay; a start failure
yields `null`), a `running` record is returned as-is.  `consulted` and
`registered` record what the first half did. -/
def ensureRunningStartPhase (reg : Registry) (serviceName : String) (supOk : Bool) (now : Int)
    (consulted registered : Bool) : Option ServiceInstance × Registry × RouterEffects :=
  match getService reg serviceName with
  | none => (none, reg, { consultedConfig := consulted, registeredService := registered, supCalls := [] })
  | some service =>
    if service.status ≠ .running then
      match startService reg serviceName supOk now with
      | (.ok _, reg2, calls) =>
        (getService reg2 serviceName, reg2,
         { consultedConfig := consulted, registeredService := registered, supCalls := calls })
      | (.err _, reg2, calls) =>
        (none, reg2,
         { consultedConfig := consulted, registeredService := registered, supCalls := calls })
    else
      (some service, reg, { consultedConfig := consulted, registeredService := registered, supCalls := [] })

/-- `ensureServiceRunning(serviceName)` (router lines 102-137).  The names
`.well-known` and `favicon.ico` are rejected immediately; an unknown name
is looked up in the configuration and registered when configured (`null`
when not); then a non-`running` record is started.  Returns the record to
proxy to (`none` stands for the `null` that the caller maps to 503), the
new registry, and the effects trace. -/
def ensureServiceRunning (reg : Registry) (services : List (String × ServiceConfig))
    (serviceName : String) (supOk : Bool) (now : Int) :
    Option ServiceInstance × Registry × RouterEffects :=
  if serviceName = ".well-known" ∨ serviceName = "favicon.ico" then
    (none, reg, noEffects)
  else
    match getService reg serviceName with
    | some _ => ensureRunningStartPhase reg serviceName supOk now false false
    | none =>
      match configLookup services serviceName with
      | none => (none, reg, { consultedConfig := true, registeredService := false, supCalls := [] })
      | some serviceConfig =>
        ensureRunningStartPhase (registerService reg serviceName serviceConfig now)
          serviceName supOk now true true

/-- The outbound request the router hands to `fetch` (router lines 49-68):
target `http://localhost:{port}{path}{query}`, plus the forwarded method,
headers, and body. -/
structure ForwardedRequest where
  port : Nat
  path : String
  query : String
  method : String
  headers : List (String × String)
  body : Option String
  serviceName : String
deriving DecidableEq, Repr

/-- What `handleRequest` decides before any upstream response arrives:
an early JSON error response with the given status, or a forwarded
upstream request. -/
inductive RouterOutcome
  | respond (status : Nat)
  | forward (req : ForwardedRequest)
deriving DecidableEq, Repr

/-- `handleRequest(request)` (router lines 16-79) up to the point the
upstream `fetch` is issued.  `path`/`query`/`method`/`headers`/`body` are
the inbound request's components (`query` is `url.search` verbatim,
`proto` is `url.protocol` without the trailing colon); `supOk` is the
supervisor oracle for any start this request triggers.  No first segment
is 404 (`Service not specified`); a `null` from `ensureServiceRunning` is
503 (`Service unavailable`); otherwise activity is recorded and the
request is forwarded to the service's port with the service-name prefix
stripped from the path and the two forwarding headers set. -/
def handleRequest (reg : Registry) (services : List (String × ServiceConfig))
    (path query method : String) (headers : List (String × String)) (body : Option String)
    (proto : String) (supOk : Bool) (now : Int) :
    RouterOutcome × Registry × RouterEffects :=
  let segments := pathSegments path
  match segments.head? with
  | none => (.respond 404, reg, noEffects)
  | some serviceName =>
    match ensureServiceRunning reg services serviceName supOk now with
    | (none, reg1, eff) => (.respond 503, reg1, eff)
    | (some service, reg1, eff) =>
      let reg2 := updateActivity reg1 service.name now
      let strippedPath := "/" ++ String.intercalate "/" segments.tail
      let targetPath :=
        if strippedPath = "/" ∧ path.endsWith "/" = false ∧ segments.length = 1
        then "/" else strippedPath
      (.forward
        { port := service.port
          path := targetPath
          query := query
          method := method
          headers := setHeader (setHeader headers "X-Forwarded-For" "gateway") "X-Forwarded-Proto" proto
          body := body
          serviceName := service.name },
       reg2, eff)

/-!
Interleaving model of N concurrent requests racing to start the same cold
service.  The JS runtime is a single-threaded event loop, so each
synchronous segment between `await`s runs atomically.  `startService`
(manager lines 64-75) reads the record's status, early-returns on
`running`/`starting`, and otherwise writes `status = 'starting'` with no
`await` in between — one atomic segment (`enter`/`skip` below).  The
awaited `pm2.start` then completes in a later segment (`finishOk` /
`finishFail`, manager lines 94-109), setting `running` or `error`.
Each request's other steps (registration, the router's status read) touch
no supervisor and are irrelevant to the start count.
-/

/-- Program counter of one request inside `startService`: not yet entered,
holding an in-flight `pm2.start`, or returned. -/
inductive ReqPc
  | idle
  | launching
  | done
deriving DecidableEq, Repr

/-- Shared state of the race: the service record's status, each request's
program counter, and how many supervisor start commands have been issued. -/
structure StartRace (n : Nat) where
  status : ServiceStatus
  pcs : Fin n → ReqPc
  startCount : Nat

/-- Initial race state: the record registered in `stopped`, no request yet
inside `startService`, no start issued. -/
def StartRace.init (n : Nat) : StartRace n :=
  { status := .stopped, pcs := fun _ => .idle, startCount := 0 }

/-- One atomic event-loop segment of the race. -/
inductive StartStep (n : Nat) : StartRace n → StartRace n → Prop
  | enter (s : StartRace n) (i : Fin n) :
      s.pcs i = .idle →
      ¬(s.status = .running ∨ s.status = .starting) →
      StartStep n s { status := .starting,
                      pcs := Function.update s.pcs i .launching,
                      startCount := s.startCount + 1 }
  | skip (s : StartRace n) (i : Fin n) :
      s.pcs i = .idle →
      (s.status = .running ∨ s.status = .starting) →
      StartStep n s { s with pcs := Function.update s.pcs i .done }
  | finishOk (s : StartRace n) (i : Fin n) :
      s.pcs i = .launching →
      StartStep n s { status := .running,
                      pcs := Function.update s.pcs i .done,
                      startCount := s.startCount }
  | finishFail (s : StartRace n) (i : Fin n) :
      s.pcs i = .launching →
      StartStep n s { status := .error,
                      pcs := Function.update s.pcs i .done,
                      startCount := s.startCount }

/-- States reachable from the cold-start initial state by any interleaving
(supervisor may fail). -/
inductive Reach (n : Nat) : StartRace n → Prop
  | base : Reach n (StartRace.init n)
  | step {s t : StartRace n} : Reach n s → StartStep n s t → Reach n t

/-- A step on which the supervisor did not fail. -/
def GoodStep (n : Nat) (s t : StartRace n) : Prop :=
  StartStep n s t ∧ t.status ≠ .error

/-- States reachable when every issued start succeeds. -/
inductive ReachGood (n : Nat) : StartRace n → Prop
  | base : ReachGood n (StartRace.init n)
  | step {s t : StartRace n} : ReachGood n s → GoodStep n s t → ReachGood n t

/-- Invariant over all interleavings: an in-flight start forces status
`starting`, and at most one start is in flight. -/
def RaceInv (n : Nat) (s : StartRace n) : Prop :=
  (∀ i, s.pcs i = .launching → s.status = .starting)
  ∧ ∀ i j, s.pcs i = .launching → s.pcs j = .launching → i = j

/-- Invariant over failure-free interleavings: the start count is pinned by
the status, and `stopping`/`error` are unreachable. -/
def GoodCountInv (n : Nat) (s : StartRace n) : Prop :=
  (s.status ≠ .stopping ∧ s.status ≠ .error)
  ∧ (s.status = .stopped → s.startCount = 0 ∧ ∀ i, s.pcs i = .idle)
  ∧ (s.status = .starting → s.startCount = 1)
  ∧ (s.status = .running → s.startCount = 1 ∧ ∀ i, s.pcs i ≠ .launching)

/-!
Shared fixtures and helper lemmas.
-/

/-- A representative `ServiceConfig`, shaped like the `hello-world` entry of
the sample configuration. -/
def sampleConfig : ServiceConfig :=
  { command := "bun run start", port := 3001, timeout := some 300000,
    healthCheck := "/health", instances := 1, autorestart := false,
    maxRestarts := 3, env := [] }

/-- A registered record currently `running`. -/
def runningInstance : ServiceInstance :=
  { name := "hello-world", config := sampleConfig, status := .running, port := 3001,
    lastActivity := 1000, requestCount := 2, errorCount := 0,
    pid := some 42, startTime := some 500 }

/-- A registered record currently `stopped`. -/
def stoppedInstance : ServiceInstance :=
  { name := "hello-world", config := sampleConfig, status := .stopped, port := 3001,
    lastActivity := 1000, requestCount := 2, errorCount := 0,
    pid := none, startTime := none }

/-- A `running` record registered under the name `serviceA`. -/
def serviceAInstance : ServiceInstance :=
  { name := "serviceA", config := sampleConfig, status := .running, port := 3001,
    lastActivity := 1000, requestCount := 2, errorCount := 0,
    pid := some 42, startTime := some 500 }

/-- Updating the record stored under `name` with a name-preserving mutation
is observed by `getService` as mapping that mutation over the lookup. -/
theorem getService_updateService (reg : Registry) (name : String)
    (f : ServiceInstance → ServiceInstance) (hf : ∀ s, (f s).name = s.name) :
    getService (updateService reg name f) name = Option.map f (getService reg name) := by
  induction reg with
  | nil => rfl
  | cons a t ih =>
    show getService ((if a.name = name then f a else a) :: updateService t name f) name
        = Option.map f (getService (a :: t) name)
    by_cases h : a.name = name
    · rw [if_pos h]
      show List.find? (fun s => s.name == name) (f a :: updateService t name f)
          = Option.map f (List.find? (fun s => s.name == name) (a :: t))
      rw [List.find?_cons_of_pos _ (by simp [hf a, h]), List.find?_cons_of_pos _ (by simp [h])]
      rfl
    · rw [if_neg h]
      show List.find? (fun s => s.name == name) (a :: updateService t name f)
          = Option.map f (List.find? (fun s => s.name == name) (a :: t))
      rw [List.find?_cons_of_neg _ (by simp [h]), List.find?_cons_of_neg _ (by simp [h])]
      exact ih

/-- `headers.set` makes the written header readable back. -/
theorem getHeader_setHeader_self (hs : List (String × String)) (k v : String) :
    getHeader (setHeader hs k v) k = some v := by
  induction hs with
  | nil => simp [setHeader, getHeader]
  | cons a t ih =>
    by_cases h : a.1 = k
    · simpa [setHeader, h] using ih
    · simpa [setHeader, getHeader, h] using ih

/-- `headers.set` leaves every other header name unchanged. -/
theorem getHeader_setHeader_ne (hs : List (String × String)) (k v k' : String)
    (h : k' ≠ k) :
    getHeader (setHeader hs k v) k' = getHeader hs k' := by
  induction hs with
  | nil => simp [setHeader, getHeader, h.symm]
  | cons a t ih =>
    obtain ⟨ak, av⟩ := a
    by_cases ha : ak = k
    · have hak' : ¬(ak = k') := by rw [ha]; exact h.symm
      simp only [setHeader, List.filter_cons] at ih ⊢
      simp only [ha, bne_self_eq_false, Bool.false_eq_true, if_false]
      rw [ih]
      simp [getHeader, hak', h.symm]
    · simp only [setHeader, List.filter_cons] at ih ⊢
      have hne : (ak != k) = true := bne_iff_ne.mpr ha
      simp only [hne, if_true]
      by_cases hk' : ak = k'
      · simp [getHeader, hk']
      · simp only [getHeader, hk', if_false]
        exact ih

/-- A service whose record is `running` is returned by `ensureServiceRunning`
as-is: no configuration lookup, no registration, no supervisor call, no
registry change. -/
theorem ensureServiceRunning_of_running (reg : Registry)
    (services : List (String × ServiceConfig)) (name : String) (svc : ServiceInstance)
    (supOk : Bool) (now : Int)
    (hname : ¬(name = ".well-known" ∨ name = "favicon.ico"))
    (hreg : getService reg name = some svc)
    (hrun : svc.status = .running) :
    ensureServiceRunning reg services name supOk now = (some svc, reg, noEffects) := by
  simp [ensureServiceRunning, hname, ensureRunningStartPhase, hreg, hrun, noEffects]

/-- A failure-free run is in particular a run. -/
theorem reachGood_toReach {n : Nat} {s : StartRace n} (h : ReachGood n s) : Reach n s := by
  induction h with
  | base => exact Reach.base
  | step _ hst ih => exact Reach.step ih hst.1

/-- `RaceInv` holds initially. -/
theorem raceInv_init (n : Nat) : RaceInv n (StartRace.init n) := by
  constructor
  · intro i hi
    exact ReqPc.noConfusion hi
  · intro i j hi _
    exact (ReqPc.noConfusion hi : False).elim

/-- `RaceInv` is preserved by every step. -/
theorem raceInv_step {n : Nat} {s t : StartRace n} (hs : RaceInv n s)
    (hst : StartStep n s t) : RaceInv n t := by
  obtain ⟨haux, huniq⟩ := hs
  cases hst with
  | enter i hidle hguard =>
    have key : ∀ j, Function.update s.pcs i ReqPc.launching j = .launching → j = i := by
      intro j hj
      by_contra hne
      rw [Function.update_noteq hne] at hj
      exact hguard (Or.inr (haux j hj))
    exact ⟨fun j _ => rfl, fun j l hj hl => (key j hj).trans (key l hl).symm⟩
  | skip i hidle hin =>
    have key : ∀ j, Function.update s.pcs i ReqPc.done j = .launching → s.pcs j = .launching := by
      intro j hj
      rcases eq_or_ne j i with rfl | hne
      · rw [Function.update_same] at hj
        exact ReqPc.noConfusion hj
      · rwa [Function.update_noteq hne] at hj
    exact ⟨fun j hj => haux j (key j hj), fun j l hj hl => huniq j l (key j hj) (key l hl)⟩
  | finishOk i hlaunch =>
    have key : ∀ j, Function.update s.pcs i ReqPc.done j = .launching → False := by
      intro j hj
      rcases eq_or_ne j i with rfl | hne
      · rw [Function.update_same] at hj
        exact ReqPc.noConfusion hj
      · rw [Function.update_noteq hne] at hj
        exact hne (huniq j i hj hlaunch)
    exact ⟨fun j hj => (key j hj).elim, fun j l hj _ => (key j hj).elim⟩
  | finishFail i hlaunch =>
    have key : ∀ j, Function.update s.pcs i ReqPc.done j = .launching → False := by
      intro j hj
      rcases eq_or_ne j i with rfl | hne
      · rw [Function.update_same] at hj
        exact ReqPc.noConfusion hj
      · rw [Function.update_noteq hne] at hj
        exact hne (huniq j i hj hlaunch)
    exact ⟨fun j hj => (key j hj).elim, fun j l hj _ => (key j hj).elim⟩

/-- `RaceInv` holds in every reachable state. -/
theorem raceInv_reach {n : Nat} {s : StartRace n} (h : Reach n s) : RaceInv n s := by
  induction h with
  | base => exact raceInv_init n
  | step _ hst ih => exact raceInv_step ih hst

/-- `GoodCountInv` holds initially. -/
theorem goodCountInv_init (n : Nat) : GoodCountInv n (StartRace.init n) := by
  refine ⟨⟨fun h => ServiceStatus.noConfusion h, fun h => ServiceStatus.noConfusion h⟩,
    fun _ => ⟨rfl, fun _ => rfl⟩, fun h => ServiceStatus.noConfusion h,
    fun h => ServiceStatus.noConfusion h⟩

/-- `GoodCountInv` is preserved by failure-free steps. -/
theorem goodCountInv_step {n : Nat} {s t : StartRace n} (hinv : RaceInv n s)
    (hgood : GoodCountInv n s) (hst : GoodStep n s t) : GoodCountInv n t := by
  obtain ⟨hstep, hok⟩ := hst
  obtain ⟨⟨hnstop, hnerr⟩, hstopped, hstarting, hrunning⟩ := hgood
  cases hstep with
  | enter i hidle hguard =>
    have hs : s.status = .stopped := by
      cases hc : s.status
      · rfl
      · exact absurd (Or.inr hc) hguard
      · exact absurd (Or.inl hc) hguard
      · exact absurd hc hnstop
      · exact absurd hc hnerr
    refine ⟨⟨fun h => ServiceStatus.noConfusion h, fun h => ServiceStatus.noConfusion h⟩,
      fun h => ServiceStatus.noConfusion h, fun _ => ?_, fun h => ServiceStatus.noConfusion h⟩
    show s.startCount + 1 = 1
    rw [(hstopped hs).1]
  | skip i hidle hin =>
    refine ⟨⟨hnstop, hnerr⟩, fun h => ?_, fun h => hstarting h, fun h => ?_⟩
    · rcases hin with h1 | h1 <;> (rw [h] at h1; exact ServiceStatus.noConfusion h1)
    · obtain ⟨hc, hl⟩ := hrunning h
      refine ⟨hc, fun j hj => ?_⟩
      have hj2 : Function.update s.pcs i ReqPc.done j = ReqPc.launching := hj
      rcases eq_or_ne j i with rfl | hne
      · rw [Function.update_same] at hj2
        exact ReqPc.noConfusion hj2
      · rw [Function.update_noteq hne] at hj2
        exact hl j hj2
  | finishOk i hlaunch =>
    have hs : s.status = .starting := hinv.1 i hlaunch
    refine ⟨⟨fun h => ServiceStatus.noConfusion h, fun h => ServiceStatus.noConfusion h⟩,
      fun h => ServiceStatus.noConfusion h, fun h => ServiceStatus.noConfusion h,
      fun _ => ⟨hstarting hs, fun j hj => ?_⟩⟩
    have hj2 : Function.update s.pcs i ReqPc.done j = ReqPc.launching := hj
    rcases eq_or_ne j i with rfl | hne
    · rw [Function.update_same] at hj2
      exact ReqPc.noConfusion hj2
    · rw [Function.update_noteq hne] at hj2
      exact hne (hinv.2 j i hj2 hlaunch)
  | finishFail i hlaunch =>
    exact absurd rfl hok

/-- `GoodCountInv` holds in every state reachable by a failure-free run. -/
theorem goodCountInv_reach {n : Nat} {s : StartRace n} (h : ReachGood n s) :
    GoodCountInv n s := by
  induction h with
  | base => exact goodCountInv_init n
  | step hr hst ih =>
    exact goodCountInv_step (raceInv_reach (reachGood_toReach hr)) ih hst

/-!
The claims.
-/

/-- Claim C5: for every registered service whose status is `running` or
`starting`, `startService` returns the existing record unchanged, leaves
the registry unchanged, and issues no supervisor start invocation. -/
theorem C5_startService_noop_when_active (reg : Registry) (name : String)
    (svc : ServiceInstance) (supOk : Bool) (now : Int)
    (hreg : getService reg name = some svc)
    (hstatus : svc.status = .running ∨ svc.status = .starting) :
    startService reg name supOk now = (.ok svc, reg, []) := by
  rcases hstatus with h | h <;> simp [startService, hreg, h]

/-- Witness for C5 at a concrete running record. -/
theorem C5_startService_noop_when_active_witness :
    startService [runningInstance] "hello-world" true 2000
      = (.ok runningInstance, [runningInstance], []) :=
  C5_startService_noop_when_active [runningInstance] "hello-world" runningInstance true 2000
    (by decide) (Or.inl (by decide))

/-- Claim C6: for every registered service whose status is `stopped` or
`stopping`, `stopService` is an idempotent no-op: it returns without any
supervisor invocation and the registry (hence the record) is unchanged. -/
theorem C6_stopService_noop_when_stopped (reg : Registry) (name : String)
    (svc : ServiceInstance) (supOk : Bool)
    (hreg : getService reg name = some svc)
    (hstatus : svc.status = .stopped ∨ svc.status = .stopping) :
    stopService reg name supOk = (.ok, reg, []) := by
  rcases hstatus with h | h <;> simp [stopService, hreg, h]

/-- Witness for C6 at a concrete stopped record. -/
theorem C6_stopService_noop_when_stopped_witness :
    stopService [stoppedInstance] "hello-world" true = (.ok, [stoppedInstance], []) :=
  C6_stopService_noop_when_stopped [stoppedInstance] "hello-world" stoppedInstance true
    (by decide) (Or.inl (by decide))

/-- Claim C7: for every registered service in `stopped` or `error` status,
a failing supervisor start leaves the record in `error` with its error
counter incremented by exactly one (all other fields unchanged, as the
record literal shows), issues exactly the one start invocation, and
re-raises the failure to the caller. -/
theorem C7_startService_failure (reg : Registry) (name : String)
    (svc : ServiceInstance) (now : Int)
    (hreg : getService reg name = some svc)
    (hstatus : svc.status = .stopped ∨ svc.status = .error) :
    startService reg name false now
      = (.err ("Failed to start service " ++ name),
         updateService reg name (fun s => { s with status := .error, errorCount := s.errorCount + 1 }),
         [.start name])
    ∧ getService (startService reg name false now).2.1 name
        = some { svc with status := .error, errorCount := svc.errorCount + 1 } := by
  have hmain : startService reg name false now
      = (.err ("Failed to start service " ++ name),
         updateService reg name (fun s => { s with status := .error, errorCount := s.errorCount + 1 }),
         [.start name]) := by
    rcases hstatus with h | h <;> simp [startService, hreg, h]
  refine ⟨hmain, ?_⟩
  rw [hmain]
  rw [getService_updateService reg name
        (fun s => { s with status := .error, errorCount := s.errorCount + 1 })
        (fun s => rfl),
      hreg]
  rfl

/-- Witness for C7 at a concrete stopped record and a failing supervisor. -/
theorem C7_startService_failure_witness :
    startService [stoppedInstance] "hello-world" false 2000
      = (.err "Failed to start service hello-world",
         updateService [stoppedInstance] "hello-world"
           (fun s => { s with status := .error, errorCount := s.errorCount + 1 }),
         [.start "hello-world"])
    ∧ getService (startService [stoppedInstance] "hello-world" false 2000).2.1 "hello-world"
        = some { stoppedInstance with status := .error, errorCount := stoppedInstance.errorCount + 1 } :=
  C7_startService_failure [stoppedInstance] "hello-world" stoppedInstance 2000
    (by decide) (Or.inl (by decide))

/-- Claim C8: for every timeout value and registry state,
`getInactiveServices` returns exactly the records that are `running` and
whose inactivity `now - lastActivity` strictly exceeds the timeout. -/
theorem C8_getInactiveServices_exact (reg : Registry) (timeoutMs now : Int)
    (svc : ServiceInstance) :
    svc ∈ getInactiveServices reg timeoutMs now ↔
      svc ∈ reg ∧ svc.status = .running ∧ now - svc.lastActivity > timeoutMs := by
  simp only [getInactiveServices, List.mem_filter, decide_eq_true_eq]
  constructor
  · rintro ⟨hm, hr, hl⟩
    exact ⟨hm, hr, by omega⟩
  · rintro ⟨hm, hr, hl⟩
    exact ⟨hm, hr, by omega⟩

/-- Claim C2 (counterexample): the code classifies via `response.ok`, which
is true only for 2xx.  A probe of a running service that completes with
HTTP 304 — a 3xx status the claim calls `healthy` — is classified
`unhealthy` with `HTTP 304` as the detail. -/
theorem C2_counterexample_304_unhealthy :
    (healthCheck [runningInstance] "hello-world" (.completed 304) 7).status = .unhealthy
    ∧ (healthCheck [runningInstance] "hello-world" (.completed 304) 7).status ≠ .healthy
    ∧ (healthCheck [runningInstance] "hello-world" (.completed 304) 7).error = some "HTTP 304" := by
  refine ⟨?_, ?_, ?_⟩ <;> decide

/-- Claim C2 (amended): for every health probe of a running service, a
completed response is `healthy` exactly when its status is 2xx (200-299);
any other completed status is `unhealthy` with the status code as detail;
a probe exceeding the timeout is `timeout`; a refused/reset connection is
`unhealthy`. -/
theorem C2_health_classification (reg : Registry) (name : String) (svc : ServiceInstance)
    (rt : Int) (s : Nat) (msg : String)
    (hreg : getService reg name = some svc)
    (hrun : svc.status = .running) :
    ((healthCheck reg name (.completed s) rt).status
        = if 200 ≤ s ∧ s ≤ 299 then HCStatus.healthy else .unhealthy)
    ∧ (¬(200 ≤ s ∧ s ≤ 299) →
        (healthCheck reg name (.completed s) rt).error = some ("HTTP " ++ toString s))
    ∧ (healthCheck reg name (.timedOut msg) rt).status = .timeout
    ∧ (healthCheck reg name (.connError msg) rt).status = .unhealthy := by
  refine ⟨?_, fun hns => ?_, ?_, ?_⟩
  · by_cases hc : 200 ≤ s ∧ s ≤ 299 <;> simp [healthCheck, hreg, hrun, hc]
  · simp [healthCheck, hreg, hrun, hns]
  · simp [healthCheck, hreg, hrun]
  · simp [healthCheck, hreg, hrun]

/-- Witness for C2 at a concrete running record: a 204 probe is healthy and
a timed-out probe is `timeout`. -/
theorem C2_health_classification_witness :
    (healthCheck [runningInstance] "hello-world" (.completed 204) 7).status = .healthy
    ∧ (healthCheck [runningInstance] "hello-world" (.timedOut "The operation timed out") 7).status
        = .timeout := by
  have h := C2_health_classification [runningInstance] "hello-world" runningInstance 7 204
    "The operation timed out" (by decide) (by decide)
  refine ⟨?_, h.2.2.1⟩
  rw [h.1]
  decide

/-- Claim C9: a health probe on a running service never changes the
record's status — after the Activity Monitor's health loop processes a
non-`healthy` probe, the record is exactly the old one with only its error
counter incremented (status in particular still `running`); `healthCheck`
itself (as embedded, returning only the `HealthCheckResult`) touches no
record at all. -/
theorem C9_health_probe_preserves_status (reg : Registry) (name : String)
    (svc : ServiceInstance) (outcome : ProbeOutcome) (rt : Int)
    (hreg : getService reg name = some svc)
    (hrun : svc.status = .running)
    (hres : (healthCheck reg name outcome rt).status ≠ .healthy) :
    getService (performHealthCheckOn reg name outcome rt) name
      = some { svc with errorCount := svc.errorCount + 1 }
    ∧ ({ svc with errorCount := svc.errorCount + 1 } : ServiceInstance).status = .running := by
  have hstep : performHealthCheckOn reg name outcome rt
      = updateService reg name (fun s => { s with errorCount := s.errorCount + 1 }) := by
    simp only [performHealthCheckOn]
    rw [if_neg hres]
  refine ⟨?_, hrun⟩
  rw [hstep,
      getService_updateService reg name (fun s => { s with errorCount := s.errorCount + 1 })
        (fun s => rfl),
      hreg]
  rfl

/-- Witness for C9: a timed-out probe of a concrete running record leaves
it running with the error counter bumped to one. -/
theorem C9_health_probe_preserves_status_witness :
    getService (performHealthCheckOn [runningInstance] "hello-world" (.timedOut "The operation timed out") 5)
        "hello-world"
      = some { runningInstance with errorCount := runningInstance.errorCount + 1 }
    ∧ ({ runningInstance with errorCount := runningInstance.errorCount + 1 } : ServiceInstance).status
        = .running :=
  C9_health_probe_preserves_status [runningInstance] "hello-world" runningInstance
    (.timedOut "The operation timed out") 5 (by decide) (by decide) (by decide)

/-- Claim C1 (counterexample): a request whose first path segment names a
service with no record and no configuration entry is answered 503
(`Service unavailable`), not 404 as the claim states. -/
theorem C1_counterexample_unconfigured_not_404 :
    (handleRequest [] [] "/unknown-svc/x" "" "GET" [] none "http" true 0).1 = .respond 503
    ∧ (handleRequest [] [] "/unknown-svc/x" "" "GET" [] none "http" true 0).1 ≠ .respond 404 := by
  constructor <;> decide

/-- Claim C1 (amended): for every proxied request whose first non-empty
path segment names a service that has no existing record and no entry in
the configuration's service map, the gateway responds 503 (`Service
unavailable`) — `ensureServiceRunning` returns `null` and `handleRequest`
maps every `null` to 503. -/
theorem C1_unconfigured_responds_503 (reg : Registry)
    (services : List (String × ServiceConfig))
    (path query method proto : String) (headers : List (String × String))
    (body : Option String) (supOk : Bool) (now : Int)
    (sname : String) (rest : List String)
    (hseg : pathSegments path = sname :: rest)
    (hreg : getService reg sname = none)
    (hcfg : configLookup services sname = none) :
    (handleRequest reg services path query method headers body proto supOk now).1
      = .respond 503 := by
  by_cases hres : sname = ".well-known" ∨ sname = "favicon.ico"
  · simp [handleRequest, hseg, ensureServiceRunning, hres]
  · simp [handleRequest, hseg, ensureServiceRunning, hres, hreg, hcfg]

/-- Witness for C1 (amended) at a concrete unconfigured name. -/
theorem C1_unconfigured_responds_503_witness :
    (handleRequest [] [] "/unknown-svc/x" "?q=1" "GET" [] none "http" true 0).1
      = .respond 503 :=
  C1_unconfigured_responds_503 [] [] "/unknown-svc/x" "?q=1" "GET" "http" [] none true 0
    "unknown-svc" ["x"] (by decide) rfl rfl

/-- Claim C4: a proxied request to `/serviceA/foo` whose record is running
on port P is forwarded to `http://localhost:P/foo` with the query string,
method, and body verbatim and all request headers preserved except the two
forwarding headers the router sets (`X-Forwarded-For`, `X-Forwarded-Proto`). -/
theorem C4_forwarding (reg : Registry) (services : List (String × ServiceConfig))
    (query method proto : String) (headers : List (String × String)) (body : Option String)
    (supOk : Bool) (now : Int) (svc : ServiceInstance) (P : Nat)
    (hreg : getService reg "serviceA" = some svc)
    (hrun : svc.status = .running)
    (hport : svc.port = P)
    (hname : svc.name = "serviceA") :
    (handleRequest reg services "/serviceA/foo" query method headers body proto supOk now).1
      = .forward
          { port := P, path := "/foo", query := query, method := method,
            headers := setHeader (setHeader headers "X-Forwarded-For" "gateway")
              "X-Forwarded-Proto" proto,
            body := body, serviceName := "serviceA" }
    ∧ getHeader (setHeader (setHeader headers "X-Forwarded-For" "gateway")
        "X-Forwarded-Proto" proto) "X-Forwarded-For" = some "gateway"
    ∧ getHeader (setHeader (setHeader headers "X-Forwarded-For" "gateway")
        "X-Forwarded-Proto" proto) "X-Forwarded-Proto" = some proto
    ∧ ∀ h, h ≠ "X-Forwarded-For" → h ≠ "X-Forwarded-Proto" →
        getHeader (setHeader (setHeader headers "X-Forwarded-For" "gateway")
          "X-Forwarded-Proto" proto) h = getHeader headers h := by
  have hseg : pathSegments "/serviceA/foo" = ["serviceA", "foo"] := by decide
  have hens := ensureServiceRunning_of_running reg services "serviceA" svc supOk now
    (by decide) hreg hrun
  refine ⟨?_, ?_, getHeader_setHeader_self _ _ _, fun h h1 h2 => ?_⟩
  · simp [handleRequest, hseg, hens, hport, hname]
    try decide
  · rw [getHeader_setHeader_ne _ _ _ _ (by decide), getHeader_setHeader_self]
  · rw [getHeader_setHeader_ne _ _ _ _ h2, getHeader_setHeader_ne _ _ _ _ h1]

/-- Witness for C4 at a concrete registry, header list, and query. -/
theorem C4_forwarding_witness :
    (handleRequest [serviceAInstance] [] "/serviceA/foo" "?x=1" "GET"
        [("Accept", "text/html")] none "http" true 0).1
      = .forward
          { port := 3001, path := "/foo", query := "?x=1", method := "GET",
            headers := setHeader (setHeader [("Accept", "text/html")] "X-Forwarded-For" "gateway")
              "X-Forwarded-Proto" "http",
            body := none, serviceName := "serviceA" }
    ∧ getHeader (setHeader (setHeader [("Accept", "text/html")] "X-Forwarded-For" "gateway")
        "X-Forwarded-Proto" "http") "Accept" = getHeader [("Accept", "text/html")] "Accept" := by
  have h := C4_forwarding [serviceAInstance] [] "?x=1" "GET" "http" [("Accept", "text/html")]
    none true 0 serviceAInstance 3001 (by decide) (by decide) (by decide) (by decide)
  exact ⟨h.1, h.2.2.2 "Accept" (by decide) (by decide)⟩

/-- Claim C10: a request whose first path segment is `.well-known` or
`favicon.ico` is answered 503 with no configuration lookup, no
registration, no supervisor invocation, and no registry change — whatever
the configuration contains. -/
theorem C10_reserved_names_bypass (reg : Registry)
    (services : List (String × ServiceConfig))
    (path query method proto : String) (headers : List (String × String))
    (body : Option String) (supOk : Bool) (now : Int)
    (sname : String) (rest : List String)
    (hseg : pathSegments path = sname :: rest)
    (hres : sname = ".well-known" ∨ sname = "favicon.ico") :
    handleRequest reg services path query method headers body proto supOk now
      = (.respond 503, reg, noEffects) := by
  simp [handleRequest, hseg, ensureServiceRunning, hres]

/-- Witness for C10: `favicon.ico` is rejected even though the
configuration maps that very name to a service. -/
theorem C10_reserved_names_bypass_witness :
    handleRequest [] [("favicon.ico", sampleConfig)] "/favicon.ico" "" "GET" [] none "http" true 0
      = (.respond 503, [], noEffects) :=
  C10_reserved_names_bypass [] [("favicon.ico", sampleConfig)] "/favicon.ico" "" "GET" "http"
    [] none true 0 "favicon.ico" [] (by decide) (Or.inr rfl)

/-- Claim C3: for a configured service starting cold (`stopped`, count 0),
N concurrent requests racing through `startService` issue exactly one
supervisor start invocation when the start succeeds (first conjunct:
every failure-free run in which all requests have returned has start count
exactly 1), and in every run — supervisor failures included — no two start
commands are ever in flight at the same time (second conjunct). -/
theorem C3_no_double_start (n : Nat) (s : StartRace n) :
    (ReachGood n s → 0 < n → (∀ i, s.pcs i = .done) → s.startCount = 1)
    ∧ (Reach n s → ∀ i j : Fin n, s.pcs i = .launching → s.pcs j = .launching → i = j) := by
  constructor
  · intro hreach hn hdone
    obtain ⟨⟨hnstop, hnerr⟩, hstopped, hstarting, hrunning⟩ := goodCountInv_reach hreach
    cases hc : s.status with
    | stopped =>
      exfalso
      have h1 := (hstopped hc).2 ⟨0, hn⟩
      rw [hdone ⟨0, hn⟩] at h1
      exact ReqPc.noConfusion h1
    | starting => exact hstarting hc
    | running => exact (hrunning hc).1
    | stopping => exact absurd hc hnstop
    | error => exact absurd hc hnerr
  · intro hreach i j hi hj
    exact (raceInv_reach hreach).2 i j hi hj

/-- Intermediate state of a concrete single-request run: the request has
entered `startService` and holds the in-flight supervisor start. -/
def raceMid : StartRace 1 :=
  { status := .starting,
    pcs := Function.update (StartRace.init 1).pcs 0 .launching,
    startCount := (StartRace.init 1).startCount + 1 }

/-- Final state of the concrete run: the start completed successfully. -/
def raceFinal : StartRace 1 :=
  { status := .running,
    pcs := Function.update raceMid.pcs 0 .done,
    startCount := raceMid.startCount }

/-- The concrete run `init → raceMid` is a failure-free run. -/
theorem raceMid_reachGood : ReachGood 1 raceMid :=
  ReachGood.step ReachGood.base
    ⟨StartStep.enter (StartRace.init 1) 0 rfl (by decide), by decide⟩

/-- The concrete run `init → raceMid → raceFinal` is a failure-free run. -/
theorem raceFinal_reachGood : ReachGood 1 raceFinal :=
  ReachGood.step raceMid_reachGood
    ⟨StartStep.finishOk raceMid 0 (by decide), by decide⟩

/-- Witness for C3: on the concrete completed run exactly one start was
issued, and the overlap bound instantiated at `raceMid` is discharged. -/
theorem C3_no_double_start_witness :
    raceFinal.startCount = 1 ∧ (0 : Fin 1) = 0 :=
  ⟨(C3_no_double_start 1 raceFinal).1 raceFinal_reachGood (by decide) (by decide),
   (C3_no_double_start 1 raceMid).2 (reachGood_toReach raceMid_reachGood) 0 0
     (by decide) (by decide)⟩

end BunServerless
